import Mathlib

/-! # Token store over Redis and its beego request filter

A shallow embedding of

* `src/github.com/ysqi/tokenauth/store_redis.go` (`RedisStore`),
* `src/github.com/ysqi/tokenauth/errors.go` (`ValidationError`),
* `src/github.com/ysqi/tokenauth2beego/auth.go` (`Automatic`),
* `src/github.com/ysqi/tokenauth2beego/o2o/o2o.go` (`NewAuthFileter`),

and the properties of the specification that are stated about them.
-/

namespace TokenAuth

/-! ## Data model -/

/-- Customer error of `errors.go`: a numeric code and a message. -/
structure ValidationError where
  Code : Int
  Msg : String
  deriving DecidableEq, Repr

/-- Modelled from the spec: the `Token` type declaration (section 3 of the
specification), which `store_redis.go` uses through the fields `Value`,
`ClientID`, `SingleID` and `DeadLine` (Unix seconds, `0` for a token that
never expires). -/
structure Token where
  ClientID : String
  SingleID : String
  Value : String
  DeadLine : Int
  deriving DecidableEq, Repr

/-- Modelled from the spec: the method `Token.Expired`, whose body is not in
the source tree. Section 3: "true iff `DeadLine` is set and in the past";
`now` is the reading of `time.Now().Unix()`. -/
def Token.Expired (t : Token) (now : Int) : Bool :=
  decide (t.DeadLine ≠ 0) && decide (t.DeadLine < now)

/-- The errors `store_redis.go` builds with `errors.New` and `fmt.Errorf`, one
constructor for each message, and `backend` for an error handed back by the
Redis client. -/
inductive StoreError where
  /-- The message "audience id is empty." -/
  | audienceIdEmpty
  /-- The message "audienceID is emtpty." -/
  | audienceIDEmtpty
  /-- The message "token tokenString is empty." -/
  | tokenStringEmpty
  /-- The message "token clientid and singleid,It can't be empty" -/
  | principalEmpty
  /-- The message "token is expired,not need save." -/
  | tokenExpired
  /-- The message "tokenString is empty." -/
  | getTokenStringEmpty
  /-- The message "get token failed" -/
  | getTokenFailed
  /-- The message "incompatible tokenString" -/
  | incompatibleTokenString
  /-- The message "redisStore: redis db store config is empty" -/
  | configEmpty
  /-- The message "redisStore: unmarshal ... fail:..." with the decoder's text. -/
  | unmarshalFail (detail : String)
  /-- The message "redisStore: redis db store config has no host key." -/
  | configNoHost
  /-- An error returned by the Redis client. -/
  | backend (msg : String)
  deriving DecidableEq, Repr

/-! ## The backend

`store.db` is a `*redis.RedisManager` of the package `s4s/common/lib/redis`,
which is outside the source tree. The store uses five of its commands, all
on the one key space of the server: a key holds either a token record (a
string value with a time-to-live) or an index (a hash), and a record whose
time-to-live has run out is gone for every command. `DEL` removes a key
whatever it holds, `SETEX` replaces whatever the key holds, and `HSET`,
`HGETALL` and `GET` answer `WRONGTYPE` on a key of the other kind. Every
command issued is appended to a log, so that "no read or write happened" is
a statement about the state. -/

/-- A command sent to the backend, with its arguments. The value of `HSET` is
the text `time.Now().Format("20160102150405")`, which the store never reads
back; it is represented by the clock reading that is formatted. -/
inductive Cmd where
  | hgetall (key : String)
  | del (key : String)
  | hset (key field : String) (stamp : Int)
  | setex (key : String) (seconds : Int)
  | get (key : String)
  deriving DecidableEq, Repr

/-- A string key's content: the JSON document of a token, represented by the
token that `json.Unmarshal` reads back from it, and the Unix time at which
the key lapses (the time of the write plus the seconds given to `SETEX`). -/
structure Entry where
  data : Token
  expireAt : Int
  deriving DecidableEq, Repr

/-- What a key holds: a token record, or an index with its fields and values. -/
inductive RVal where
  | record (e : Entry)
  | index (fields : List (String × Int))
  deriving DecidableEq, Repr

/-- State of the backend: the key space and the commands received. -/
structure Backend where
  keys : String → Option RVal
  log : List Cmd

/-- A backend that holds nothing and has received no command. -/
def Backend.empty : Backend :=
  { keys := fun _ => none, log := [] }

/-- The error Redis answers to a command on a key of the other kind. -/
def wrongType : StoreError :=
  StoreError.backend "WRONGTYPE Operation against a key holding the wrong kind of value"

/-- What the key holds at time `now`: a record that has lapsed is gone. -/
def Backend.live (b : Backend) (now : Int) (key : String) : Option RVal :=
  match b.keys key with
  | some (RVal.record e) => if now < e.expireAt then some (RVal.record e) else none
  | some (RVal.index fields) => some (RVal.index fields)
  | none => none

/-- Command `HGETALL key` at time `now`: the fields of the index with their
values; nothing for a missing key; nothing and `WRONGTYPE` for a token record. -/
def Backend.HgetAll (b : Backend) (now : Int) (key : String) :
    (List (String × Int) × Option StoreError) × Backend :=
  let b1 := { b with log := b.log ++ [Cmd.hgetall key] }
  match b.live now key with
  | some (RVal.index fields) => ((fields, none), b1)
  | some (RVal.record _) => (([], some wrongType), b1)
  | none => (([], none), b1)

/-- Command `DEL key`: removes the key, whatever it holds. -/
def Backend.Del (b : Backend) (key : String) : Backend :=
  { keys := fun k => if k = key then none else b.keys k
    log := b.log ++ [Cmd.del key] }

/-- Sets `field` of an index, replacing its value when the field exists. -/
def hashPut (field : String) (stamp : Int) : List (String × Int) → List (String × Int)
  | [] => [(field, stamp)]
  | (f, v) :: rest =>
      if f = field then (f, stamp) :: rest else (f, v) :: hashPut field stamp rest

/-- Command `HSET key field value` at time `now`: sets the field of the index,
creating the index when the key is missing; on a key that holds a token
record it answers `WRONGTYPE` and writes nothing. -/
def Backend.Hset (b : Backend) (now : Int) (key field : String) (stamp : Int) :
    Option StoreError × Backend :=
  let b1 := { b with log := b.log ++ [Cmd.hset key field stamp] }
  match b.live now key with
  | some (RVal.record _) => (some wrongType, b1)
  | some (RVal.index fields) =>
      (none, { b1 with
        keys := fun k =>
          if k = key then some (RVal.index (hashPut field stamp fields)) else b.keys k })
  | none =>
      (none, { b1 with
        keys := fun k => if k = key then some (RVal.index [(field, stamp)]) else b.keys k })

/-- Command `SETEX key seconds value` at time `now`: the key holds the value
from now on, whatever it held. Redis refuses a time-to-live that is not
positive ("invalid expire time") and then writes nothing. -/
def Backend.SetEx (b : Backend) (now : Int) (key : String) (value : Token) (seconds : Int) :
    Option StoreError × Backend :=
  let b1 := { b with log := b.log ++ [Cmd.setex key seconds] }
  if seconds ≤ 0 then
    (some (StoreError.backend "ERR invalid expire time in setex"), b1)
  else
    (none, { b1 with
      keys := fun k =>
        if k = key then some (RVal.record ⟨value, now + seconds⟩) else b.keys k })

/-- Command `GET key` at time `now`: the reply and the error. A missing key
gives a nil reply, an index gives `WRONGTYPE`. -/
def Backend.Get (b : Backend) (now : Int) (key : String) :
    (Option Token × Option StoreError) × Backend :=
  let b1 := { b with log := b.log ++ [Cmd.get key] }
  match b.live now key with
  | some (RVal.record e) => ((some e.data, none), b1)
  | some (RVal.index _) => ((none, some wrongType), b1)
  | none => ((none, none), b1)

/-! ## `RedisStore` token operations -/

/-- The index key `fmt.Sprintf("audience_%s_%s", token.ClientID, token.SingleID)`. -/
def recordKey (t : Token) : String :=
  "audience_" ++ t.ClientID ++ "_" ++ t.SingleID

/-- The loop `for k := range mp  store.db.Del(k)`. -/
def delAll (b : Backend) (keys : List String) : Backend :=
  keys.foldl Backend.Del b

/-- Method `RedisStore.SaveToken` at clock reading `now`; `none` is the nil token.
`json.Marshal` of a token does not fail. The errors of `HgetAll`, `Del` and
`Hset` are dropped, as in the code. -/
def RedisStore.SaveToken (db : Backend) (now : Int) (token : Option Token) :
    Option StoreError × Backend :=
  match token with
  | none => (some StoreError.tokenStringEmpty, db)
  | some t =>
    if t.Value.length = 0 then (some StoreError.tokenStringEmpty, db)
    else if t.ClientID.length = 0 ∧ t.SingleID.length = 0 then
      (some StoreError.principalEmpty, db)
    else if t.Expired now then (some StoreError.tokenExpired, db)
    else
      let mp := db.HgetAll now (recordKey t)
      -- delete old auth token
      let db1 := delAll mp.2 (mp.1.1.map Prod.fst)
      let db2 := (db1.Hset now (recordKey t) t.Value now).2
      db2.SetEx now t.Value t (t.DeadLine - now)

/-- Method `RedisStore.FlushToken` at clock reading `now`. -/
def RedisStore.FlushToken (db : Backend) (now : Int) (token : Option Token) :
    Option StoreError × Backend :=
  match token with
  | none => (some StoreError.tokenStringEmpty, db)
  | some t =>
    if t.Value.length = 0 then (some StoreError.tokenStringEmpty, db)
    else if t.ClientID.length = 0 ∧ t.SingleID.length = 0 then
      (some StoreError.principalEmpty, db)
    else if t.Expired now then (some StoreError.tokenExpired, db)
    else
      let db1 := (db.Hset now (recordKey t) t.Value now).2
      db1.SetEx now t.Value t (t.DeadLine - now)

/-- Method `RedisStore.GetToken`: the pair `(token, err)` it returns. An error of
`Get` is handed back as it is; a nil reply is no byte slice. -/
def RedisStore.GetToken (db : Backend) (now : Int) (tokenString : String) :
    (Option Token × Option StoreError) × Backend :=
  if tokenString.length = 0 then ((none, some StoreError.getTokenStringEmpty), db)
  else
    match db.Get now tokenString with
    | ((_, some err), db1) => ((none, some err), db1)
    | ((some t, none), db1) => ((some t, none), db1)
    | ((none, none), db1) => ((none, some StoreError.getTokenFailed), db1)

/-- Method `RedisStore.DeleteToken`. -/
def RedisStore.DeleteToken (db : Backend) (tokenString : String) :
    Option StoreError × Backend :=
  if tokenString.length = 0 then (some StoreError.incompatibleTokenString, db)
  else (none, db.Del tokenString)

/-- One call on the store: `SaveToken`, `FlushToken` (at a clock reading, with
a token that may be nil) or `DeleteToken`. -/
inductive Call where
  | save (now : Int) (token : Option Token)
  | flush (now : Int) (token : Option Token)
  | delete (tokenString : String)

/-- Error returned by a call and the backend after it. -/
def Call.result (c : Call) (db : Backend) : Option StoreError × Backend :=
  match c with
  | Call.save now token => RedisStore.SaveToken db now token
  | Call.flush now token => RedisStore.FlushToken db now token
  | Call.delete tokenString => RedisStore.DeleteToken db tokenString

/-- The backend after a sequence of calls, made in order. -/
def runCalls (calls : List Call) (db : Backend) : Backend :=
  calls.foldl (fun b c => (c.result b).2) db

/-- A token that passes the three checks of `SaveToken` and `FlushToken`. -/
def Token.valid (t : Token) (now : Int) : Prop :=
  t.Value ≠ "" ∧ ¬ (t.ClientID = "" ∧ t.SingleID = "") ∧ t.Expired now = false

instance (t : Token) (now : Int) : Decidable (t.valid now) := by
  unfold Token.valid
  exact inferInstance

/-! ## `RedisStore` audience operations -/

/-- Modelled from the spec: the `Audience` type declaration (section 3 of the
specification), of which `store_redis.go` reads the field `ID`. -/
structure Audience where
  Name : String
  ID : String
  Secret : String
  TokenPeriod : Nat
  deriving DecidableEq, Repr

/-- Method `RedisStore.SaveAudience`; `none` is the nil audience. The audience is
marshalled (which does not fail) and nothing is sent to the backend. -/
def RedisStore.SaveAudience (db : Backend) (audience : Option Audience) :
    Option StoreError × Backend :=
  match audience with
  | none => (some StoreError.audienceIdEmpty, db)
  | some a =>
    if a.ID.length = 0 then (some StoreError.audienceIdEmpty, db)
    else (none, db)

/-- Method `RedisStore.DeleteAudience`. -/
def RedisStore.DeleteAudience (db : Backend) (audienceID : String) :
    Option StoreError × Backend :=
  if audienceID.length = 0 then (some StoreError.audienceIDEmtpty, db)
  else (none, db)

/-- Method `RedisStore.GetAudience`: the pair `(audience, err)`. After the length
check the function ends with a bare `return` of its named results, which
were never assigned. -/
def RedisStore.GetAudience (db : Backend) (audienceID : String) :
    (Option Audience × Option StoreError) × Backend :=
  if audienceID.length = 0 then ((none, some StoreError.audienceIDEmtpty), db)
  else ((none, none), db)

/-! ## `RedisStore.Open` -/

/-- The store of `store_redis.go`; `db` is `none` while no manager is attached. -/
structure RedisStore where
  Alias : String
  db : Option Backend
  dbPath : String

/-- Function `NewRedisStore`. -/
def NewRedisStore : RedisStore :=
  { Alias := "RedisStore", db := none, dbPath := "" }

/-- Arguments of one call of the constructor `redis.NewRedisManager`. -/
structure Dial where
  host : String
  auth : String
  poolSize : Int
  timeout : Int
  deriving DecidableEq, Repr

/-- What lies outside the source tree and `Open` calls: `json.Unmarshal` into a
`map[string]string` (the decoded map, or the decoder's error text) and the
constructor `redis.NewRedisManager` (the manager and the error it returns). -/
structure OpenEnv where
  jsonUnmarshal : String → Except String (String → Option String)
  NewRedisManager : Dial → Option Backend × Option StoreError

/-- Value of a run of decimal digits, `none` when a character is no digit. -/
def digitsValue : List Char → Nat → Option Nat
  | [], acc => some acc
  | c :: cs, acc =>
      if 48 ≤ c.toNat ∧ c.toNat ≤ 57 then digitsValue cs (acc * 10 + (c.toNat - 48))
      else none

/-- The value of `strconv.ParseInt(s, 10, 64)` with its error dropped: `0` on
a syntax error, the nearest bound of `int64` when out of range. -/
def parseInt64 (s : String) : Int :=
  match s.data with
  | [] => 0
  | c :: cs =>
    let neg := decide (c = '-')
    let body := if c = '+' ∨ c = '-' then cs else c :: cs
    match body with
    | [] => 0
    | _ =>
      match digitsValue body 0 with
      | none => 0
      | some n =>
        if neg then (if n > 2 ^ 63 then -(2 ^ 63 : Int) else -(n : Int))
        else (if n ≥ 2 ^ 63 then (2 ^ 63 : Int) - 1 else (n : Int))

/-- Two's complement reading of an integer as an `int64`. -/
def wrapInt64 (x : Int) : Int :=
  (x + 2 ^ 63) % 2 ^ 64 - 2 ^ 63

/-- Result of `Open`: the error returned, the store afterwards, and the calls
of the connection constructor that were made. -/
structure OpenResult where
  err : Option StoreError
  store : RedisStore
  dialed : List Dial

/-- Method `RedisStore.Open`. Durations are in nanoseconds. -/
def RedisStore.Open (env : OpenEnv) (store : RedisStore) (config : String) : OpenResult :=
  if config.length = 0 then ⟨some StoreError.configEmpty, store, []⟩
  else
    match env.jsonUnmarshal config with
    | Except.error e => ⟨some (StoreError.unmarshalFail e), store, []⟩
    | Except.ok cf =>
      match cf "host" with
      | none => ⟨some StoreError.configNoHost, store, []⟩
      | some host =>
        let auth := (cf "auth").getD ""
        let pool0 := parseInt64 ((cf "pool_size").getD "")
        let pool_size := if pool0 ≤ 0 then 10 else pool0
        let timeoutS := parseInt64 ((cf "timeout").getD "")
        let timeout : Int :=
          if timeoutS > 0 then wrapInt64 (1000000000 * timeoutS) else 1000000000 / 10
        let d : Dial := ⟨host, auth, pool_size, timeout⟩
        let r := env.NewRedisManager d
        ⟨r.2, { store with db := r.1 }, [d]⟩

/-! ## The beego integration (`auth.go`, `o2o.go`) -/

/-- A Go `error` reaching `ReturnFailueInfo`: a `tokenauth.ValidationError`
value, or any other error, given by the text of its `Error()`. -/
inductive GoError where
  | validation (v : ValidationError)
  | other (text : String)
  deriving DecidableEq, Repr

/-- Variable `ERR_ServerError` of `auth.go`. -/
def ERR_ServerError : ValidationError :=
  { Code := 10001, Msg := "System error , Please retry" }

/-- Variable `ERR_UserIDEmpty` of `auth.go`. -/
def ERR_UserIDEmpty : ValidationError :=
  { Code := 41020, Msg := "UserID is empty" }

/-- Constant `TokenFieldName` of `auth.go`. -/
def TokenFieldName : String := "access_token"

/-- UTF-8 encoding of a character. -/
def charBytes (c : Char) : List Nat :=
  let n := c.toNat
  if n < 128 then [n]
  else if n < 2048 then [192 + n / 64, 128 + n % 64]
  else if n < 65536 then [224 + n / 4096, 128 + n / 64 % 64, 128 + n % 64]
  else [240 + n / 262144, 128 + n / 4096 % 64, 128 + n / 64 % 64, 128 + n % 64]

/-- The bytes of a Go string. -/
def goBytes (s : String) : List Nat :=
  s.data.foldr (fun c acc => charBytes c ++ acc) []

/-- Go `len(s)`. -/
def goLen (s : String) : Nat := (goBytes s).length

/-- First index at which `sub` occurs in `bs`, counted from `i`, or `-1`. -/
def indexBytes (sub : List Nat) : List Nat → Nat → Int
  | [], i => if sub = [] then (i : Int) else -1
  | b :: rest, i =>
      if sub.isPrefixOf (b :: rest) then (i : Int) else indexBytes sub rest (i + 1)

/-- Go `strings.Index(s, substr)`: byte index of the first occurrence, or `-1`. -/
def stringsIndex (s substr : String) : Int :=
  indexBytes (goBytes substr) (goBytes s) 0

/-- Bytes allowed in a header field name (`validHeaderFieldByte`). -/
def validHeaderFieldChar (c : Char) : Bool :=
  c.isAlphanum || c.toNat ∈ [33, 35, 36, 37, 38, 39, 42, 43, 45, 46, 94, 95, 96, 124, 126]

/-- Upper-cases the first letter and every letter after a hyphen, lower-cases
the others. -/
def canonicalChars : Bool → List Char → List Char
  | _, [] => []
  | upper, c :: cs =>
      (if upper then c.toUpper else c.toLower) :: canonicalChars (c = '-') cs

/-- Go `textproto.CanonicalMIMEHeaderKey`: a key holding a byte that is not
allowed in a field name is returned unchanged. -/
def CanonicalMIMEHeaderKey (s : String) : String :=
  if s.data.all validHeaderFieldChar then String.mk (canonicalChars true s.data) else s

/-- Go `http.Header` and `url.Values`: the values stored under each key. -/
abbrev Values := String → List String

/-- Go `Header.Get(key)`: the first value under the canonical key, or "". -/
def Header.Get (h : Values) (key : String) : String :=
  (h (CanonicalMIMEHeaderKey key)).headD ""

/-- Go `Header.Add(key, value)`: appends to the values under the canonical key. -/
def Header.Add (h : Values) (key value : String) : Values :=
  fun k => if k = CanonicalMIMEHeaderKey key then h k ++ [value] else h k

/-- Go `Values.Get(key)` of `url.Values`: the first value under the key, or "". -/
def Values.Get (v : Values) (key : String) : String :=
  (v key).headD ""

/-- The parts of `*http.Request` the filter touches. `Form` is `none` while
the form is not parsed, `parsedForm` is what `ParseMultipartForm` then stores
in `Form`, and `Cookies` are the cookies sent, in order, as name and value. -/
structure Request where
  Header : Values
  Form : Option Values
  parsedForm : Values
  Cookies : List (String × String)
  Path : String

/-- Go `req.ParseMultipartForm(10e6)`: fills `Form`. -/
def Request.ParseMultipartForm (req : Request) : Request :=
  { req with Form := some req.parsedForm }

/-- Go `req.Cookie(name)`: the first cookie of that name. -/
def Request.Cookie (req : Request) (name : String) : Option String :=
  (req.Cookies.find? (fun c => c.1 = name)).map Prod.snd

/-- The process-wide values and the functions of other packages that
`auth.go` and `o2o.go` read: `EnableCookie`, `beego.BConfig.RunMode`,
`tokenauth.ERR_TokenEmpty` and `tokenauth.ValidateToken`. -/
structure Env where
  EnableCookie : Bool
  RunMode : String
  ERR_TokenEmpty : ValidationError
  ValidateToken : String → Except GoError Token

/-- Method `Automatic.CheckToken`: the token or the error, and the request, whose
form the call may have parsed. The slice `ah[fieldLen+1:]` is taken when the
first thirteen bytes are "access_token" and a blank, so thirteen characters. -/
def Automatic.CheckToken (env : Env) (req : Request) : Except GoError Token × Request :=
  let ah := Header.Get req.Header "Authorization"
  let fieldLen := goLen TokenFieldName
  let tokenString0 :=
    if goLen ah > 0 ∧ goLen ah > fieldLen + 1 ∧ (goBytes ah)[fieldLen]? = some 32
        ∧ (goBytes TokenFieldName).isPrefixOf (goBytes ah) then
      String.mk (ah.data.drop (fieldLen + 1))
    else ""
  -- Look for "access_token" parameter
  let req1 : Request :=
    if goLen tokenString0 = 0 then
      (if req.Form.isNone then req.ParseMultipartForm else req)
    else req
  let tokenString1 :=
    if goLen tokenString0 = 0 then
      (let tokStr := Values.Get (req1.Form.getD req1.parsedForm) TokenFieldName
       if tokStr ≠ "" then tokStr else tokenString0)
    else tokenString0
  -- Search for cookie
  let tokenString2 :=
    if goLen tokenString1 = 0 ∧ env.EnableCookie = true then
      (match req1.Cookie TokenFieldName with
       | some v => v
       | none => tokenString1)
    else tokenString1
  (if goLen tokenString2 = 0 then Except.error (GoError.validation env.ERR_TokenEmpty)
   else env.ValidateToken tokenString2, req1)

/-- One body written by `ctx.Output.XML` or `ctx.Output.JSON`. -/
structure Rendered where
  xml : Bool
  body : ValidationError
  hasIndent : Bool
  deriving DecidableEq, Repr

/-- The parts of beego `context.Context` used: the request, the answer of
`ctx.Input.AcceptsXML()` and the bodies written to the output so far. -/
structure Context where
  Request : Request
  AcceptsXML : Bool
  Output : List Rendered

/-- The value of `errInfo` that `ReturnFailueInfo` renders for a non-nil error. -/
def errInfoOf (env : Env) (err : GoError) : ValidationError :=
  match err with
  | GoError.validation v => v
  | GoError.other text =>
      if env.RunMode = "dev" then
        { ERR_ServerError with Msg := ERR_ServerError.Msg ++ "," ++ text }
      else ERR_ServerError

/-- Method `Automatic.ReturnFailueInfo`; `none` is the nil error. -/
def Automatic.ReturnFailueInfo (env : Env) (err : Option GoError) (ctx : Context) : Context :=
  match err with
  | none => ctx
  | some e =>
    let errInfo := errInfoOf env e
    let hasIndent := decide (env.RunMode = "dev")
    { ctx with Output := ctx.Output ++ [⟨ctx.AcceptsXML, errInfo, hasIndent⟩] }

/-- The filter function that `NewAuthFileter` (and so `DefaultFileter`)
returns, applied to a context. -/
def NewAuthFileter (env : Env) (ctx : Context) : Context :=
  match Automatic.CheckToken env ctx.Request with
  | (Except.error err, req) =>
      let ctx1 := { ctx with Request := req }
      if stringsIndex req.Path "/n" ≠ 3 then Automatic.ReturnFailueInfo env (some err) ctx1
      else ctx1
  | (Except.ok token, req) =>
      { ctx with Request := { req with Header := Header.Add req.Header "uid" token.SingleID } }

/-! ## Example values -/

/-- An environment for examples: production or development run mode, no
cookies, and a validator that knows the single token "tok" of user "u1". -/
def exampleEnv (runMode : String) : Env :=
  { EnableCookie := false
    RunMode := runMode
    ERR_TokenEmpty := { Code := 41001, Msg := "Token is emtpy" }
    ValidateToken := fun s =>
      if s = "tok" then Except.ok { ClientID := "", SingleID := "u1", Value := "tok", DeadLine := 0 }
      else Except.error (GoError.other "get token failed") }

/-- A request for `path` that carries no token. -/
def anonymousRequest (path : String) : Request :=
  { Header := fun _ => []
    Form := none
    parsedForm := fun _ => []
    Cookies := []
    Path := path }

/-- A request that carries the token "tok" in its `Authorization` header and
a `uid` header of the client's own. -/
def spoofingRequest : Request :=
  { Header := fun k =>
      if k = "Authorization" then ["access_token tok"]
      else if k = "Uid" then ["admin"] else []
    Form := none
    parsedForm := fun _ => []
    Cookies := []
    Path := "/v1/orders" }

/-- An environment for examples: the decoder reads one text, an object that
holds only the key `auth`, and the constructor always connects. -/
def exampleOpenEnv : OpenEnv :=
  { jsonUnmarshal := fun s =>
      if s = "\x7b\"auth\":\"pw\"\x7d" then
        Except.ok (fun k => if k = "auth" then some "pw" else none)
      else Except.error "invalid character"
    NewRedisManager := fun _ => (some Backend.empty, none) }

/-- A token of user "u1", valid until 200. -/
def tokenOld : Token := { ClientID := "", SingleID := "u1", Value := "v1", DeadLine := 200 }

/-- A second token of user "u1", valid until 300. -/
def tokenNew : Token := { ClientID := "", SingleID := "u1", Value := "v2", DeadLine := 300 }

/-- A token of the principal with client "a_b" and user "c". -/
def tokenLeft : Token := { ClientID := "a_b", SingleID := "c", Value := "v1", DeadLine := 200 }

/-- A token of the principal with client "a" and user "b_c". -/
def tokenRight : Token := { ClientID := "a", SingleID := "b_c", Value := "v2", DeadLine := 200 }

/-! ## Strings -/

theorem length_zero_iff (s : String) : s.length = 0 ↔ s = "" := by
  constructor
  · intro h
    have h1 : s.data = [] := List.length_eq_zero.mp h
    exact String.ext h1
  · intro h
    subst h
    rfl

/-! ## Effect of the backend commands -/

theorem SetEx_fst (b : Backend) (now : Int) (key : String) (value : Token) (seconds : Int) :
    (b.SetEx now key value seconds).1 =
      if seconds ≤ 0 then some (StoreError.backend "ERR invalid expire time in setex")
      else none := by
  unfold Backend.SetEx
  by_cases h : seconds ≤ 0 <;> simp [h]

theorem SetEx_log (b : Backend) (now : Int) (key : String) (value : Token) (seconds : Int) :
    (b.SetEx now key value seconds).2.log = b.log ++ [Cmd.setex key seconds] := by
  unfold Backend.SetEx
  by_cases h : seconds ≤ 0 <;> simp [h]

theorem Hset_log (b : Backend) (now : Int) (key field : String) (stamp : Int) :
    (b.Hset now key field stamp).2.log = b.log ++ [Cmd.hset key field stamp] := by
  unfold Backend.Hset
  cases h : b.live now key with
  | none => rfl
  | some v => cases v <;> rfl

theorem SaveToken_of_valid (db : Backend) (now : Int) (t : Token) (h : t.valid now) :
    RedisStore.SaveToken db now (some t) =
      ((delAll (db.HgetAll now (recordKey t)).2
          ((db.HgetAll now (recordKey t)).1.1.map Prod.fst)).Hset
        now (recordKey t) t.Value now).2.SetEx now t.Value t (t.DeadLine - now) := by
  obtain ⟨hv, hp, he⟩ := h
  simp only [RedisStore.SaveToken, length_zero_iff]
  simp [hv, hp, he]

theorem FlushToken_of_valid (db : Backend) (now : Int) (t : Token) (h : t.valid now) :
    RedisStore.FlushToken db now (some t) =
      (db.Hset now (recordKey t) t.Value now).2.SetEx now t.Value t (t.DeadLine - now) := by
  obtain ⟨hv, hp, he⟩ := h
  simp only [RedisStore.FlushToken, length_zero_iff]
  simp [hv, hp, he]

theorem SaveToken_of_not_valid (db : Backend) (now : Int) (t : Token) (h : ¬ t.valid now) :
    (RedisStore.SaveToken db now (some t)).1 ≠ none ∧
      (RedisStore.SaveToken db now (some t)).2 = db := by
  simp only [RedisStore.SaveToken, length_zero_iff]
  by_cases hv : t.Value = ""
  · simp [hv]
  · by_cases hp : t.ClientID = "" ∧ t.SingleID = ""
    · simp [hv, hp]
    · by_cases he : t.Expired now = true
      · simp [hv, hp, he]
      · exact absurd ⟨hv, hp, by simpa using he⟩ h

theorem FlushToken_of_not_valid (db : Backend) (now : Int) (t : Token) (h : ¬ t.valid now) :
    (RedisStore.FlushToken db now (some t)).1 ≠ none ∧
      (RedisStore.FlushToken db now (some t)).2 = db := by
  simp only [RedisStore.FlushToken, length_zero_iff]
  by_cases hv : t.Value = ""
  · simp [hv]
  · by_cases hp : t.ClientID = "" ∧ t.SingleID = ""
    · simp [hv, hp]
    · by_cases he : t.Expired now = true
      · simp [hv, hp, he]
      · exact absurd ⟨hv, hp, by simpa using he⟩ h

/-! ## Validation in `SaveToken` -/

/-- C2. A token that is nil, has an empty `Value`, has both `ClientID` and
`SingleID` empty, or is expired at `now`, makes `SaveToken` return a non-nil
error and leaves the backend as it was, its command log included (nothing was
read or written). For every other token `SaveToken` returns none of the three
validation errors. -/
theorem saveToken_validation (db : Backend) (now : Int) (token : Option Token) :
    ((token = none ∨ ∃ t, token = some t ∧
        (t.Value = "" ∨ (t.ClientID = "" ∧ t.SingleID = "") ∨ t.Expired now = true)) →
      (RedisStore.SaveToken db now token).1 ≠ none ∧
      (RedisStore.SaveToken db now token).2 = db) ∧
    (¬ (token = none ∨ ∃ t, token = some t ∧
        (t.Value = "" ∨ (t.ClientID = "" ∧ t.SingleID = "") ∨ t.Expired now = true)) →
      (RedisStore.SaveToken db now token).1 ≠ some StoreError.tokenStringEmpty ∧
      (RedisStore.SaveToken db now token).1 ≠ some StoreError.principalEmpty ∧
      (RedisStore.SaveToken db now token).1 ≠ some StoreError.tokenExpired) := by
  cases token with
  | none => simp [RedisStore.SaveToken]
  | some t =>
    by_cases hval : t.valid now
    · have hv := hval
      obtain ⟨h1, h2, h3⟩ := hv
      constructor
      · intro h
        rcases h with h | ⟨u, hu, h⟩
        · cases h
        · cases hu
          rcases h with h | h | h
          · exact absurd h h1
          · exact absurd h h2
          · rw [h3] at h
            cases h
      · intro _
        rw [SaveToken_of_valid db now t hval, SetEx_fst]
        by_cases hs : t.DeadLine - now ≤ 0 <;> simp [hs]
    · constructor
      · intro _
        exact SaveToken_of_not_valid db now t hval
      · intro h
        exfalso
        apply h
        right
        refine ⟨t, rfl, ?_⟩
        by_contra hc
        apply hval
        refine ⟨fun e => hc (Or.inl e), fun e => hc (Or.inr (Or.inl e)), ?_⟩
        cases he : t.Expired now
        · rfl
        · exact absurd (Or.inr (Or.inr he)) hc

/-- Witness of C2: an expired token is refused without touching the backend,
and a valid one gets none of the validation errors. -/
theorem saveToken_validation_witness :
    ((RedisStore.SaveToken Backend.empty 100 (some ⟨"c1", "u1", "v1", 50⟩)).1 ≠ none ∧
      (RedisStore.SaveToken Backend.empty 100 (some ⟨"c1", "u1", "v1", 50⟩)).2 = Backend.empty) ∧
    ((RedisStore.SaveToken Backend.empty 100 (some ⟨"c1", "u1", "v1", 150⟩)).1
        ≠ some StoreError.tokenStringEmpty ∧
      (RedisStore.SaveToken Backend.empty 100 (some ⟨"c1", "u1", "v1", 150⟩)).1
        ≠ some StoreError.principalEmpty ∧
      (RedisStore.SaveToken Backend.empty 100 (some ⟨"c1", "u1", "v1", 150⟩)).1
        ≠ some StoreError.tokenExpired) :=
  ⟨(saveToken_validation Backend.empty 100 (some ⟨"c1", "u1", "v1", 50⟩)).1
      (Or.inr ⟨_, rfl, Or.inr (Or.inr (by decide))⟩),
   (saveToken_validation Backend.empty 100 (some ⟨"c1", "u1", "v1", 150⟩)).2 (by
      intro h
      rcases h with h | ⟨u, hu, h⟩
      · cases h
      · cases hu
        revert h
        decide)⟩

/-! ## Time-to-live written by `SaveToken` -/

/-- For every token that passes the checks, the last command `SaveToken`
sends is `SETEX` under the token's `Value` with `DeadLine - now` seconds. -/
theorem SaveToken_log_last (db : Backend) (now : Int) (t : Token) (h : t.valid now) :
    (RedisStore.SaveToken db now (some t)).2.log.getLast? =
      some (Cmd.setex t.Value (t.DeadLine - now)) := by
  rw [SaveToken_of_valid db now t h, SetEx_log]
  simp

/-- C3, evaluated at a token that never expires (`DeadLine = 0`) saved at
`now = 100`: the token passes the checks and `SaveToken` sends `SETEX` with
`-100` seconds, which the backend refuses; no record is written. -/
theorem saveToken_nonexpiring_negative_ttl :
    (⟨"", "u1", "v1", 0⟩ : Token).Expired 100 = false ∧
    (RedisStore.SaveToken Backend.empty 100 (some ⟨"", "u1", "v1", 0⟩)).2.log =
      [Cmd.hgetall "audience__u1", Cmd.hset "audience__u1" "v1" 100, Cmd.setex "v1" (-100)] ∧
    (RedisStore.SaveToken Backend.empty 100 (some ⟨"", "u1", "v1", 0⟩)).1 =
      some (StoreError.backend "ERR invalid expire time in setex") ∧
    (RedisStore.GetToken
      (RedisStore.SaveToken Backend.empty 100 (some ⟨"", "u1", "v1", 0⟩)).2 100 "v1").1 =
      (none, some StoreError.getTokenFailed) := by
  decide

/-! ## `GetAudience` -/

/-- For every non-empty id and every backend, `GetAudience` returns a nil
audience together with a nil error. -/
theorem GetAudience_nonempty (db : Backend) (audienceID : String) (h : audienceID ≠ "") :
    (RedisStore.GetAudience db audienceID).1 = (none, none) := by
  have h1 : ¬ audienceID.length = 0 := fun e => h ((length_zero_iff _).mp e)
  simp [RedisStore.GetAudience, h1]

/-- C5, evaluated at the id "a1", never saved and also right after it was
saved: `GetAudience` returns a nil audience and a nil error. -/
theorem getAudience_missing_returns_nil_nil :
    (RedisStore.GetAudience Backend.empty "a1").1 = (none, none) ∧
    (RedisStore.SaveAudience Backend.empty (some ⟨"web", "a1", "s3cret", 3600⟩)).1 = none ∧
    (RedisStore.GetAudience
      (RedisStore.SaveAudience Backend.empty (some ⟨"web", "a1", "s3cret", 3600⟩)).2 "a1").1 =
      (none, none) := by
  decide

/-! ## `Open` -/

/-- C6. For a configuration string that is empty, or that decodes to a map
without the key `host`, `Open` returns a non-nil error (the one for the empty
configuration, or the one for the missing host key), leaves the store, and
so its `db` field, as it was, and never calls the connection constructor. -/
theorem open_config_error (env : OpenEnv) (store : RedisStore) (config : String)
    (h : config = "" ∨ ∃ cf, env.jsonUnmarshal config = Except.ok cf ∧ cf "host" = none) :
    ((RedisStore.Open env store config).err = some StoreError.configEmpty ∨
      (RedisStore.Open env store config).err = some StoreError.configNoHost) ∧
    (RedisStore.Open env store config).err ≠ none ∧
    (RedisStore.Open env store config).store = store ∧
    (RedisStore.Open env store config).store.db = store.db ∧
    (RedisStore.Open env store config).dialed = [] := by
  by_cases hc : config.length = 0
  · simp [RedisStore.Open, hc]
  · rcases h with h | ⟨cf, hcf, hhost⟩
    · exact absurd ((length_zero_iff _).mpr h) hc
    · simp [RedisStore.Open, hc, hcf, hhost]

/-- Witness of C6: a configuration that decodes to a map holding only `auth`. -/
theorem open_config_error_witness :
    ((RedisStore.Open exampleOpenEnv NewRedisStore "\x7b\"auth\":\"pw\"\x7d").err
        = some StoreError.configEmpty ∨
      (RedisStore.Open exampleOpenEnv NewRedisStore "\x7b\"auth\":\"pw\"\x7d").err
        = some StoreError.configNoHost) ∧
    (RedisStore.Open exampleOpenEnv NewRedisStore "\x7b\"auth\":\"pw\"\x7d").err ≠ none ∧
    (RedisStore.Open exampleOpenEnv NewRedisStore "\x7b\"auth\":\"pw\"\x7d").store
      = NewRedisStore ∧
    (RedisStore.Open exampleOpenEnv NewRedisStore "\x7b\"auth\":\"pw\"\x7d").store.db
      = NewRedisStore.db ∧
    (RedisStore.Open exampleOpenEnv NewRedisStore "\x7b\"auth\":\"pw\"\x7d").dialed = [] :=
  open_config_error exampleOpenEnv NewRedisStore "\x7b\"auth\":\"pw\"\x7d"
    (Or.inr ⟨_, rfl, rfl⟩)

/-! ## The error body of `ReturnFailueInfo` -/

/-- C8, at the run mode "dev" and a backend error: the body rendered is not
the generic server error, its `msg` ends with the text of the backend error. -/
theorem returnFailueInfo_dev_leaks_error_text :
    (Automatic.ReturnFailueInfo (exampleEnv "dev")
        (some (GoError.other "dial tcp 10.0.0.7:6379: connection refused"))
        ⟨anonymousRequest "/v1/orders", false, []⟩).Output =
      [⟨false,
        ⟨10001, "System error , Please retry,dial tcp 10.0.0.7:6379: connection refused"⟩,
        true⟩] ∧
    (⟨10001, "System error , Please retry,dial tcp 10.0.0.7:6379: connection refused"⟩ :
        ValidationError) ≠ ERR_ServerError := by
  decide

/-- C8 as amended. `ReturnFailueInfo` writes one body for a non-nil error. For
an error that is no `ValidationError` the body is exactly the generic server
error (code 10001, msg "System error , Please retry") in every run mode other
than "dev"; in the run mode "dev" it has code 10001 and the generic msg
followed by a comma and the text of the error. For a `ValidationError` the
body is that error, code and msg unchanged, in every run mode. -/
theorem returnFailueInfo_body (env : Env) (ctx : Context) (err : GoError) :
    (∀ text, err = GoError.other text → env.RunMode ≠ "dev" →
      (Automatic.ReturnFailueInfo env (some err) ctx).Output =
        ctx.Output ++ [⟨ctx.AcceptsXML, ⟨10001, "System error , Please retry"⟩, false⟩]) ∧
    (∀ text, err = GoError.other text → env.RunMode = "dev" →
      (Automatic.ReturnFailueInfo env (some err) ctx).Output =
        ctx.Output ++
          [⟨ctx.AcceptsXML, ⟨10001, "System error , Please retry" ++ "," ++ text⟩, true⟩]) ∧
    (∀ v, err = GoError.validation v →
      (Automatic.ReturnFailueInfo env (some err) ctx).Output =
        ctx.Output ++ [⟨ctx.AcceptsXML, v, decide (env.RunMode = "dev")⟩]) := by
  refine ⟨?_, ?_, ?_⟩
  · intro text he hm
    subst he
    simp [Automatic.ReturnFailueInfo, errInfoOf, hm, ERR_ServerError]
  · intro text he hm
    subst he
    simp [Automatic.ReturnFailueInfo, errInfoOf, hm, ERR_ServerError]
  · intro v he
    subst he
    simp [Automatic.ReturnFailueInfo, errInfoOf]

/-- Witness of C8 as amended: a backend error in the run mode "prod". -/
theorem returnFailueInfo_body_witness :
    (Automatic.ReturnFailueInfo (exampleEnv "prod")
        (some (GoError.other "dial tcp 10.0.0.7:6379: connection refused"))
        ⟨anonymousRequest "/v1/orders", false, []⟩).Output =
      [] ++ [⟨false, ⟨10001, "System error , Please retry"⟩, false⟩] :=
  (returnFailueInfo_body (exampleEnv "prod") ⟨anonymousRequest "/v1/orders", false, []⟩
    (GoError.other "dial tcp 10.0.0.7:6379: connection refused")).1 _ rfl (by decide)

/-! ## The request filter -/

theorem CheckToken_Path (env : Env) (req : Request) :
    (Automatic.CheckToken env req).2.Path = req.Path := by
  unfold Automatic.CheckToken
  dsimp only
  split_ifs <;> rfl

/-- C7, at a request without token whose path is "/v1/n": `CheckToken` returns
the empty-token error and the filter writes no response, where
`ReturnFailueInfo` would have written one. -/
theorem filter_passes_unauthenticated_path :
    (∃ req, Automatic.CheckToken (exampleEnv "prod") (anonymousRequest "/v1/n") =
      (Except.error (GoError.validation ⟨41001, "Token is emtpy"⟩), req)) ∧
    stringsIndex "/v1/n" "/n" = 3 ∧
    (NewAuthFileter (exampleEnv "prod") ⟨anonymousRequest "/v1/n", false, []⟩).Output = [] ∧
    (Automatic.ReturnFailueInfo (exampleEnv "prod")
        (some (GoError.validation ⟨41001, "Token is emtpy"⟩))
        ⟨anonymousRequest "/v1/n", false, []⟩).Output =
      [⟨false, ⟨41001, "Token is emtpy"⟩, false⟩] := by
  refine ⟨⟨_, rfl⟩, by decide, by decide, by decide⟩

/-- What the filter writes when `CheckToken` returns an error: the failure
response of `ReturnFailueInfo` when the first "/n" of the URL path is not at
byte index 3, and nothing when it is. -/
theorem filter_reports_failure (env : Env) (ctx : Context) (err : GoError)
    (h : (Automatic.CheckToken env ctx.Request).1 = Except.error err) :
    (stringsIndex ctx.Request.Path "/n" ≠ 3 →
      (NewAuthFileter env ctx).Output =
        ctx.Output ++ [⟨ctx.AcceptsXML, errInfoOf env err, decide (env.RunMode = "dev")⟩] ∧
      (NewAuthFileter env ctx).Output =
        (Automatic.ReturnFailueInfo env (some err) ctx).Output) ∧
    (stringsIndex ctx.Request.Path "/n" = 3 →
      (NewAuthFileter env ctx).Output = ctx.Output) := by
  have hp := CheckToken_Path env ctx.Request
  unfold NewAuthFileter
  revert h hp
  cases hc : Automatic.CheckToken env ctx.Request with
  | mk r req =>
    intro h hp
    simp only at h hp
    subst h
    simp only [hp]
    constructor
    · intro hi
      simp [hi, Automatic.ReturnFailueInfo]
    · intro hi
      simp [hi]

/-- C9, at a request that carries a valid token of user "u1" and its own
header `uid: admin`: `CheckToken` succeeds with `SingleID = "u1"`, the filter
appends to the header, and `Header.Get("uid")` afterwards is "admin". -/
theorem filter_uid_header_spoofable :
    (∃ req, Automatic.CheckToken (exampleEnv "prod") spoofingRequest =
      (Except.ok ⟨"", "u1", "tok", 0⟩, req)) ∧
    (NewAuthFileter (exampleEnv "prod") ⟨spoofingRequest, false, []⟩).Request.Header "Uid" =
      ["admin", "u1"] ∧
    Header.Get (NewAuthFileter (exampleEnv "prod") ⟨spoofingRequest, false, []⟩).Request.Header
      "uid" = "admin" := by
  refine ⟨⟨_, rfl⟩, by decide, by decide⟩

/-! ## `FlushToken` against `SaveToken` -/

theorem delAll_log (keys : List String) (b : Backend) :
    (delAll b keys).log = b.log ++ keys.map Cmd.del := by
  induction keys generalizing b with
  | nil => simp [delAll]
  | cons x xs ih =>
    have h : delAll b (x :: xs) = delAll (b.Del x) xs := rfl
    rw [h, ih]
    simp [Backend.Del]

/-- The commands `SaveToken` sends for a token that passes the checks: the
read of the index, one `DEL` for each field read, `HSET` and `SETEX`. -/
theorem SaveToken_log (db : Backend) (now : Int) (t : Token) (h : t.valid now) :
    (RedisStore.SaveToken db now (some t)).2.log =
      db.log ++ [Cmd.hgetall (recordKey t)]
        ++ ((db.HgetAll now (recordKey t)).1.1.map Prod.fst).map Cmd.del
        ++ [Cmd.hset (recordKey t) t.Value now, Cmd.setex t.Value (t.DeadLine - now)] := by
  rw [SaveToken_of_valid db now t h, SetEx_log, Hset_log, delAll_log]
  have e : (db.HgetAll now (recordKey t)).2.log = db.log ++ [Cmd.hgetall (recordKey t)] := by
    unfold Backend.HgetAll
    cases h1 : db.live now (recordKey t) with
    | none => rfl
    | some v => cases v <;> rfl
  rw [e]
  simp

/-- The commands `FlushToken` sends for a token that passes the checks: `HSET`
and `SETEX`; it reads no index and sends no `DEL`. -/
theorem FlushToken_log (db : Backend) (now : Int) (t : Token) (h : t.valid now) :
    (RedisStore.FlushToken db now (some t)).2.log =
      db.log ++ [Cmd.hset (recordKey t) t.Value now, Cmd.setex t.Value (t.DeadLine - now)] := by
  rw [FlushToken_of_valid db now t h, SetEx_log, Hset_log]
  simp

/-- C4, at the backend that holds the token "v1" of user "u1" and the token
"v2" of the same user: both calls succeed, and afterwards `GetToken("v1")`
fails on the backend of `SaveToken` and returns the old token on the backend
of `FlushToken`. -/
theorem flushToken_keeps_previous_token :
    (RedisStore.SaveToken (RedisStore.SaveToken Backend.empty 100 (some tokenOld)).2
        100 (some tokenNew)).1 = none ∧
    (RedisStore.FlushToken (RedisStore.SaveToken Backend.empty 100 (some tokenOld)).2
        100 (some tokenNew)).1 = none ∧
    (RedisStore.GetToken
      (RedisStore.SaveToken (RedisStore.SaveToken Backend.empty 100 (some tokenOld)).2
        100 (some tokenNew)).2 100 "v1").1 = (none, some StoreError.getTokenFailed) ∧
    (RedisStore.GetToken
      (RedisStore.FlushToken (RedisStore.SaveToken Backend.empty 100 (some tokenOld)).2
        100 (some tokenNew)).2 100 "v1").1 = (some tokenOld, none) := by
  decide

/-! ## Supersession across principals -/

/-- C10, at the principals (client "a_b", user "c") and (client "a", user
"b_c"): the pairs differ and the values differ, both index keys are
"audience_a_b_c", and after `SaveToken` of the second token, which succeeds,
`GetToken` no longer finds the first token, which was retrievable before. -/
theorem saveToken_deletes_other_principal :
    (tokenLeft.ClientID, tokenLeft.SingleID) ≠ (tokenRight.ClientID, tokenRight.SingleID) ∧
    tokenLeft.Value ≠ tokenRight.Value ∧
    recordKey tokenLeft = "audience_a_b_c" ∧
    recordKey tokenRight = "audience_a_b_c" ∧
    (RedisStore.SaveToken Backend.empty 100 (some tokenLeft)).1 = none ∧
    (RedisStore.GetToken (RedisStore.SaveToken Backend.empty 100 (some tokenLeft)).2
      100 tokenLeft.Value).1 = (some tokenLeft, none) ∧
    (RedisStore.SaveToken (RedisStore.SaveToken Backend.empty 100 (some tokenLeft)).2
      100 (some tokenRight)).1 = none ∧
    (RedisStore.GetToken
      (RedisStore.SaveToken (RedisStore.SaveToken Backend.empty 100 (some tokenLeft)).2
        100 (some tokenRight)).2 100 tokenLeft.Value).1 =
      (none, some StoreError.getTokenFailed) := by
  decide

/-! ## Single active session -/

theorem delAll_keys (ks : List String) (b : Backend) (k : String) :
    (delAll b ks).keys k = if k ∈ ks then none else b.keys k := by
  induction ks generalizing b with
  | nil => simp [delAll]
  | cons x xs ih =>
    have h : delAll b (x :: xs) = delAll (b.Del x) xs := rfl
    rw [h, ih]
    by_cases hx : k = x
    · simp [hx, Backend.Del]
    · by_cases hm : k ∈ xs <;> simp [hx, hm, Backend.Del]

theorem Hset_keys_other (b : Backend) (now : Int) (key field : String) (stamp : Int)
    (k : String) (hk : k ≠ key) :
    (b.Hset now key field stamp).2.keys k = b.keys k := by
  unfold Backend.Hset
  cases h : b.live now key with
  | none => simp [hk]
  | some v => cases v <;> simp [hk]

theorem Hset_keys_self_of_missing (b : Backend) (now : Int) (key field : String) (stamp : Int)
    (h : b.keys key = none) :
    (b.Hset now key field stamp).2.keys key = some (RVal.index [(field, stamp)]) := by
  have hl : b.live now key = none := by simp [Backend.live, h]
  simp [Backend.Hset, hl]

theorem GetToken_none_of_no_record (db : Backend) (now : Int) (v : String)
    (h : db.keys v = none ∨ ∃ fields, db.keys v = some (RVal.index fields)) :
    (RedisStore.GetToken db now v).1.1 = none := by
  unfold RedisStore.GetToken
  by_cases hz : v.length = 0
  · simp [hz]
  · rcases h with h | ⟨fields, h⟩
    · simp [hz, Backend.Get, Backend.live, h]
    · simp [hz, Backend.Get, Backend.live, h]

/-- The supersession `SaveToken` performs: when the index of the token's
principal is there and lists the value `v`, other than the new token's, then
after a successful `SaveToken` no token is returned under `v`, at any time. -/
theorem SaveToken_removes_listed (db : Backend) (now : Int) (t : Token)
    (fields : List (String × Int)) (v : String)
    (hok : (RedisStore.SaveToken db now (some t)).1 = none)
    (hidx : db.live now (recordKey t) = some (RVal.index fields))
    (hv : v ∈ fields.map Prod.fst) (hne : v ≠ t.Value) (later : Int) :
    (RedisStore.GetToken (RedisStore.SaveToken db now (some t)).2 later v).1.1 = none := by
  have hval : t.valid now := by
    by_contra hc
    exact (SaveToken_of_not_valid db now t hc).1 hok
  have hread : (db.HgetAll now (recordKey t)).1.1 = fields := by
    simp [Backend.HgetAll, hidx]
  have hkeys : (db.HgetAll now (recordKey t)).2.keys = db.keys := by
    unfold Backend.HgetAll
    rw [hidx]
  have hdel : (delAll (db.HgetAll now (recordKey t)).2
      ((db.HgetAll now (recordKey t)).1.1.map Prod.fst)).keys v = none := by
    rw [delAll_keys, hread]
    simp [hv]
  apply GetToken_none_of_no_record
  rw [SaveToken_of_valid db now t hval]
  have hset : ∀ b : Backend, (b.SetEx now t.Value t (t.DeadLine - now)).2.keys v = b.keys v := by
    intro b
    unfold Backend.SetEx
    by_cases h : t.DeadLine - now ≤ 0 <;> simp [h, hne]
  rw [hset]
  by_cases hk : v = recordKey t
  · right
    refine ⟨[(t.Value, now)], ?_⟩
    rw [hk] at hdel ⊢
    exact Hset_keys_self_of_missing _ now (recordKey t) t.Value now hdel
  · left
    rw [Hset_keys_other _ now (recordKey t) t.Value now v hk]
    exact hdel

/-- C1, at the run `SaveToken` of the token "v1" of user "u1", `DeleteToken` of
"audience__u1", `SaveToken` of the token "v2" of the same user: the key
deleted is the index of the user, so the second `SaveToken` reads an empty
index and sends no `DEL`; all three calls succeed, and afterwards `GetToken`
returns the old token under "v1" as well as the new one under "v2". -/
theorem saveToken_keeps_old_token_after_index_deleted :
    recordKey tokenOld = "audience__u1" ∧
    recordKey tokenNew = "audience__u1" ∧
    tokenOld.Value ≠ tokenNew.Value ∧
    (RedisStore.SaveToken Backend.empty 100 (some tokenOld)).1 = none ∧
    (RedisStore.DeleteToken (RedisStore.SaveToken Backend.empty 100 (some tokenOld)).2
      "audience__u1").1 = none ∧
    (RedisStore.SaveToken
      (runCalls [Call.save 100 (some tokenOld), Call.delete "audience__u1"] Backend.empty)
      110 (some tokenNew)).1 = none ∧
    (RedisStore.SaveToken
      (runCalls [Call.save 100 (some tokenOld), Call.delete "audience__u1"] Backend.empty)
      110 (some tokenNew)).2.log =
      [Cmd.hgetall "audience__u1", Cmd.hset "audience__u1" "v1" 100, Cmd.setex "v1" 100,
       Cmd.del "audience__u1",
       Cmd.hgetall "audience__u1", Cmd.hset "audience__u1" "v2" 110, Cmd.setex "v2" 190] ∧
    (RedisStore.GetToken (RedisStore.SaveToken
      (runCalls [Call.save 100 (some tokenOld), Call.delete "audience__u1"] Backend.empty)
      110 (some tokenNew)).2 110 "v1").1 = (some tokenOld, none) ∧
    (RedisStore.GetToken (RedisStore.SaveToken
      (runCalls [Call.save 100 (some tokenOld), Call.delete "audience__u1"] Backend.empty)
      110 (some tokenNew)).2 110 "v2").1 = (some tokenNew, none) := by
  decide

end TokenAuth
